import Mathlib

/-!
Verification of the hybrid ECS engine (entity-component store, command
buffer, runtime borrow tracking) against its specification.

The embedding mirrors the Rust sources:
- component payloads are abstracted to `Nat` (the engine is generic in the
  component type and never inspects the payload);
- `TypeId` values are abstracted to `Nat` type tags (the world keys its
  storages by `TypeId`, so a tag uniquely determines the storage);
- `HashMap` is modelled by an association list with extensional insert and
  erase (a `HashMap` never holds duplicate keys, and its iteration order is
  unspecified, so only the key-value mapping is observable);
- functions that can raise at runtime return an explicit outcome value.
-/

/-! ## Association-list model of HashMap -/

/-- Lookup in an association list keyed by `Nat`, mirroring `HashMap::get`. -/
def alookup {α : Type} : List (Nat × α) → Nat → Option α
  | [], _ => none
  | (k1, v1) :: rest, k => if k1 = k then some v1 else alookup rest k

/-- Insert mirroring `HashMap::insert`: the new binding replaces any existing
binding of the same key. -/
def ainsert {α : Type} (m : List (Nat × α)) (k : Nat) (v : α) : List (Nat × α) :=
  (k, v) :: m.filter (fun p => p.1 != k)

/-- Erase mirroring `HashMap::remove`: the binding of the key disappears. -/
def aerase {α : Type} (m : List (Nat × α)) (k : Nat) : List (Nat × α) :=
  m.filter (fun p => p.1 != k)

@[simp]
theorem alookup_nil {α : Type} (k : Nat) : alookup ([] : List (Nat × α)) k = none := rfl

@[simp]
theorem alookup_cons {α : Type} (k1 k : Nat) (v1 : α) (rest : List (Nat × α)) :
    alookup ((k1, v1) :: rest) k = if k1 = k then some v1 else alookup rest k := rfl

theorem alookup_aerase {α : Type} (m : List (Nat × α)) (k k2 : Nat) :
    alookup (aerase m k) k2 = if k2 = k then none else alookup m k2 := by
  induction m with
  | nil => simp [aerase]
  | cons p rest ih =>
    obtain ⟨k1, v1⟩ := p
    simp only [aerase, List.filter_cons] at ih ⊢
    by_cases h1 : k1 = k
    · subst h1
      simp only [bne_self_eq_false, Bool.false_eq_true, if_false, ih]
      by_cases h2 : k2 = k1
      · simp [h2]
      · have h3 : k1 ≠ k2 := fun hh => h2 hh.symm
        simp [h2, h3]
    · have hb : (k1 != k) = true := bne_iff_ne.mpr h1
      simp only [hb, if_true, alookup_cons, ih]
      by_cases h2 : k1 = k2
      · subst h2
        have h3 : k1 ≠ k := h1
        simp [h3]
      · simp [h2]

theorem alookup_ainsert {α : Type} (m : List (Nat × α)) (k k2 : Nat) (v : α) :
    alookup (ainsert m k v) k2 = if k2 = k then some v else alookup m k2 := by
  by_cases h : k2 = k
  · subst h
    simp [ainsert]
  · have hb : k ≠ k2 := fun hh => h hh.symm
    simp only [ainsert, alookup_cons, if_neg hb, if_neg h]
    have := alookup_aerase m k k2
    simp only [aerase, if_neg h] at this
    exact this

/-! ## ComponentStorage (src/src/ecs_core.rs)

The source stores one `HashMap<Entity, T>` per component type behind a
type-erased `Box<dyn Any>`.  The world keys storages by `TypeId::of::<T>`,
so every downcast performed through the world API succeeds; the storage is
therefore modelled directly by its entity-to-value map. -/

structure ComponentStorage where
  data : List (Nat × Nat)
deriving DecidableEq, Repr

namespace ComponentStorage

/-- `ComponentStorage::new` -/
def new : ComponentStorage := ⟨[]⟩

/-- `ComponentStorage::insert`: `HashMap::insert`, replacing any existing
value for the entity. -/
def insert (s : ComponentStorage) (e v : Nat) : ComponentStorage :=
  ⟨ainsert s.data e v⟩

/-- `ComponentStorage::get`: `HashMap::get`. -/
def get (s : ComponentStorage) (e : Nat) : Option Nat :=
  alookup s.data e

/-- `ComponentStorage::remove`: `HashMap::remove` of the whole entry. -/
def remove (s : ComponentStorage) (e : Nat) : ComponentStorage :=
  ⟨aerase s.data e⟩

/-- `ComponentStorage::entities`: the key set of the map. -/
def entities (s : ComponentStorage) : List Nat :=
  s.data.map (fun p => p.1)

theorem get_insert (s : ComponentStorage) (e v e2 : Nat) :
    (s.insert e v).get e2 = if e2 = e then some v else s.get e2 :=
  alookup_ainsert s.data e e2 v

theorem get_remove (s : ComponentStorage) (e e2 : Nat) :
    (s.remove e).get e2 = if e2 = e then none else s.get e2 :=
  alookup_aerase s.data e e2

end ComponentStorage

theorem mem_keys_iff {α : Type} (m : List (Nat × α)) (e : Nat) :
    e ∈ m.map (fun p => p.1) ↔ (alookup m e).isSome := by
  induction m with
  | nil => simp
  | cons p rest ih =>
    obtain ⟨k1, v1⟩ := p
    by_cases h : k1 = e
    · subst h
      simp
    · have hne : e ≠ k1 := fun hh => h hh.symm
      simp only [List.map_cons, List.mem_cons, alookup_cons, if_neg h, ih]
      simp [hne]

theorem ComponentStorage.mem_entities_iff (s : ComponentStorage) (e : Nat) :
    e ∈ s.entities ↔ (s.get e).isSome := by
  rw [ComponentStorage.entities, ComponentStorage.get]
  exact mem_keys_iff s.data e

/-! ## World (src/src/ecs_core.rs) -/

structure World where
  next_entity_id : Nat
  entities : List Nat
  components : List (Nat × ComponentStorage)
deriving DecidableEq, Repr

namespace World

/-- `World::new` -/
def new : World := ⟨0, [], []⟩

/-- `World::create_entity`: returns `Entity(next_entity_id)`, increments the
counter and pushes the id onto the registry. -/
def create_entity (w : World) : Nat × World :=
  (w.next_entity_id,
   { w with
      next_entity_id := w.next_entity_id + 1,
      entities := w.entities ++ [w.next_entity_id] })

/-- `World::add_component`: `components.entry(type_id).or_insert_with(new).insert(entity, component)`. -/
def add_component (w : World) (e t v : Nat) : World :=
  { w with
      components :=
        ainsert w.components t
          (((alookup w.components t).getD ComponentStorage.new).insert e v) }

/-- `World::get_component`: fails when either the storage or the entity is absent. -/
def get_component (w : World) (t e : Nat) : Option Nat :=
  (alookup w.components t).bind (fun s => s.get e)

/-- `World::get_component_mut`: same lookup path as `get_component`. -/
def get_component_mut (w : World) (t e : Nat) : Option Nat :=
  (alookup w.components t).bind (fun s => s.get e)

/-- `World::remove_component`: a no-op when the storage is absent. -/
def remove_component (w : World) (t e : Nat) : World :=
  match alookup w.components t with
  | none => w
  | some s => { w with components := ainsert w.components t (s.remove e) }

/-- `World::delete_entity`: `entities.retain(e2 different from e)`.  The source
removes the id from the registry only; its comment notes that a complete
implementation would also remove the components from their storages. -/
def delete_entity (w : World) (e : Nat) : World :=
  { w with entities := w.entities.filter (fun x => x != e) }

/-- Modelled from the spec: `World::destroy_entity` is called by
`Entity::destroy` (src/src/game_object.rs) and by
`CommandBuffer::execute` (src/src/command_buffer.rs) but its definition is
missing from the provided sources; per the spec it "removes the entity from
every Storage and the registry". -/
def destroy_entity (w : World) (e : Nat) : World :=
  { w with
      entities := w.entities.filter (fun x => x != e),
      components := w.components.map (fun p => (p.1, p.2.remove e)) }

/-- `World::query2`: intersect the entity sets of the two storages and pair
the common entities with both components; empty when either storage is absent. -/
def query2 (w : World) (t1 t2 : Nat) : List (Nat × Nat × Nat) :=
  match alookup w.components t1, alookup w.components t2 with
  | some s1, some s2 =>
    (s1.entities.filter (fun e => s2.entities.contains e)).filterMap
      (fun e =>
        match s1.get e, s2.get e with
        | some c1, some c2 => some (e, c1, c2)
        | _, _ => none)
  | _, _ => []

/-- Observation: the values a storage holds for an entity (the spec speaks of
a sequence of instances per entity). -/
def storedValues (w : World) (t e : Nat) : List Nat :=
  match alookup w.components t with
  | none => []
  | some s => (s.data.filter (fun p => p.1 == e)).map (fun p => p.2)

theorem get_component_add_self (w : World) (e t v : Nat) :
    (w.add_component e t v).get_component t e = some v := by
  simp [add_component, get_component, alookup_ainsert, ComponentStorage.get_insert]

theorem get_component_remove (w : World) (t e e2 : Nat) :
    (w.remove_component t e).get_component t e2 =
      if e2 = e then none else w.get_component t e2 := by
  rw [remove_component]
  cases h : alookup w.components t with
  | none =>
    by_cases h2 : e2 = e <;> simp [get_component, h, h2]
  | some s =>
    simp [get_component, alookup_ainsert, ComponentStorage.get_remove, h]

end World

/-- `Entity::has_component` (src/src/game_object.rs): a side-effect-free
presence check through `World::get_component`. -/
def Entity.has_component (w : World) (id t : Nat) : Bool :=
  (w.get_component t id).isSome

/-! ## Claims C6, C10, C1, C2 -/

/-- Claim C6: for all entities e, component types T and values v, immediately
after add_component(e, v) the lookup get_component yields v and has_component
is true; and after remove_component the lookup on e yields absence while every
other entity of the same storage is untouched. -/
theorem C6_add_get_remove (w : World) (e t v e2 : Nat) :
    (w.add_component e t v).get_component t e = some v
    ∧ Entity.has_component (w.add_component e t v) e t = true
    ∧ (w.remove_component t e).get_component t e2 =
        (if e2 = e then none else w.get_component t e2) := by
  refine ⟨World.get_component_add_self w e t v, ?_, World.get_component_remove w t e e2⟩
  simp [Entity.has_component, World.get_component_add_self w e t v]

/-- Claim C10: World::add_component performs no liveness check: it stores the
component for an arbitrary id (also one never created, or deleted from the
registry) and a subsequent get_component yields it; the entity registry is not
consulted or modified. -/
theorem C10_no_liveness_check (w : World) (e t v : Nat) :
    ((w.delete_entity e).add_component e t v).get_component t e = some v
    ∧ (w.add_component e t v).get_component t e = some v
    ∧ (w.add_component e t v).entities = w.entities := by
  exact ⟨World.get_component_add_self _ e t v, World.get_component_add_self w e t v, rfl⟩

/-- Claim C1 (evaluation at the failing input): World::delete_entity removes
the entity from the registry but leaves every storage untouched, so the
component of the deleted entity is still found and has_component stays true,
contradicting the claim that destruction clears every storage entry. -/
theorem C1_delete_entity_leaves_components :
    ((((World.new.create_entity).2.add_component 0 0 1).delete_entity 0).get_component 0 0
        = some 1)
    ∧ Entity.has_component (((World.new.create_entity).2.add_component 0 0 1).delete_entity 0) 0 0
        = true
    ∧ (((World.new.create_entity).2.add_component 0 0 1).delete_entity 0).entities = [] := by
  exact ⟨rfl, rfl, rfl⟩

/-- Claim C2 (evaluation at the failing input): ComponentStorage::insert is a
HashMap insert and overwrites, so after adding v1 = 1 then v2 = 2 for the same
entity and type the world holds exactly one instance, the value 2, and
get_component returns 2 rather than the first instance 1. -/
theorem C2_insert_overwrites :
    ((World.new.add_component 0 0 1).add_component 0 0 2).get_component 0 0 = some 2
    ∧ ((World.new.add_component 0 0 1).add_component 0 0 2).storedValues 0 0 = [2] := by
  exact ⟨rfl, rfl⟩

/-! ## BorrowTracker and the raw component accessors (src/src/game_object.rs)

Each `Entity` handle owns one `BorrowTracker` (a read counter and a write
counter) shared across all component types of that handle.  `borrow_read`
and `borrow_write` raise a runtime panic on conflict; the raised message is
modelled as an `Except.error`.  The raw accessors first take the borrow,
then look the component up under the world lock; when the lookup fails the
guard is dropped again, so the tracker is only retained on success. -/

structure BorrowTracker where
  read_count : Nat
  write_count : Nat
deriving DecidableEq, Repr

def msgReadWhileWrite : String :=
  "Cannot borrow component immutably: already borrowed mutably"

def msgWriteWhileRead : String :=
  "Cannot borrow component mutably: already borrowed immutably"

def msgWriteWhileWrite : String :=
  "Cannot borrow component mutably: already borrowed mutably"

namespace BorrowTracker

/-- `BorrowTracker::new` -/
def new : BorrowTracker := ⟨0, 0⟩

/-- `BorrowTracker::borrow_read`: raises when a write borrow is active,
otherwise increments the read count. -/
def borrow_read (tr : BorrowTracker) : Except String BorrowTracker :=
  if 0 < tr.write_count then Except.error msgReadWhileWrite
  else Except.ok ⟨tr.read_count + 1, tr.write_count⟩

/-- `BorrowTracker::borrow_write`: raises when any read borrow or another
write borrow is active, otherwise sets the write count to 1. -/
def borrow_write (tr : BorrowTracker) : Except String BorrowTracker :=
  if 0 < tr.read_count then Except.error msgWriteWhileRead
  else if 0 < tr.write_count then Except.error msgWriteWhileWrite
  else Except.ok ⟨tr.read_count, 1⟩

/-- `Drop for BorrowGuard`, read flavour: decrements the read count. -/
def releaseRead (tr : BorrowTracker) : BorrowTracker :=
  ⟨tr.read_count - 1, tr.write_count⟩

/-- `Drop for BorrowGuard`, write flavour: clears the write count. -/
def releaseWrite (tr : BorrowTracker) : BorrowTracker :=
  ⟨tr.read_count, 0⟩

end BorrowTracker

/-- Outcome of a raw scoped-reference acquisition: a raised runtime panic, a
clean absence result, or an acquired reference together with the tracker
state while the guard is alive. -/
inductive RawOutcome where
  | raised (msg : String)
  | noComponent
  | acquired (v : Nat) (tr : BorrowTracker)
deriving DecidableEq, Repr

def RawOutcome.isAcquired : RawOutcome → Bool
  | RawOutcome.acquired _ _ => true
  | _ => false

/-- `Entity::get_component_raw`: take a read borrow on the handle tracker,
then map the world read lock onto the component; absence drops the guard. -/
def Entity.get_component_raw (tr : BorrowTracker) (w : World) (id t : Nat) : RawOutcome :=
  match tr.borrow_read with
  | Except.error m => RawOutcome.raised m
  | Except.ok tr2 =>
    match w.get_component t id with
    | none => RawOutcome.noComponent
    | some v => RawOutcome.acquired v tr2

/-- `Entity::get_component_raw_mut`: take a write borrow on the handle
tracker, then map the world write lock onto the component. -/
def Entity.get_component_raw_mut (tr : BorrowTracker) (w : World) (id t : Nat) : RawOutcome :=
  match tr.borrow_write with
  | Except.error m => RawOutcome.raised m
  | Except.ok tr2 =>
    match w.get_component_mut t id with
    | none => RawOutcome.noComponent
    | some v => RawOutcome.acquired v tr2

/-- Claim C3 (evaluation at the failing input): with a shared raw reference
alive on the handle (read count 1), an exclusive raw acquisition raises the
runtime panic of BorrowTracker::borrow_write instead of returning the failure
result the claim describes; after the shared guard is released the same
acquisition succeeds. -/
theorem C3_raw_mut_raises_on_conflict :
    Entity.get_component_raw BorrowTracker.new (World.new.add_component 0 0 7) 0 0
        = RawOutcome.acquired 7 ⟨1, 0⟩
    ∧ Entity.get_component_raw_mut ⟨1, 0⟩ (World.new.add_component 0 0 7) 0 0
        = RawOutcome.raised msgWriteWhileRead
    ∧ Entity.get_component_raw_mut (BorrowTracker.releaseRead ⟨1, 0⟩)
        (World.new.add_component 0 0 7) 0 0
        = RawOutcome.acquired 7 ⟨0, 1⟩ := by
  exact ⟨rfl, rfl, rfl⟩

/-- Claim C8, counterexample: the tracker is shared by all component types of
the handle, so holding a shared raw reference to type 0 makes an exclusive
raw acquisition of the distinct type 1 on the same handle raise, where the
claim says both acquisitions succeed. -/
theorem C8_cross_type_conflict :
    Entity.get_component_raw BorrowTracker.new
        ((World.new.add_component 0 0 5).add_component 0 1 6) 0 0
        = RawOutcome.acquired 5 ⟨1, 0⟩
    ∧ Entity.get_component_raw_mut ⟨1, 0⟩
        ((World.new.add_component 0 0 5).add_component 0 1 6) 0 1
        = RawOutcome.raised msgWriteWhileRead := by
  exact ⟨rfl, rfl⟩

/-- Claim C8 as amended: the guard is scoped per entity handle and shared
across all component types: any live read borrow makes an exclusive
acquisition fail for every component type; a live write borrow excludes both
read and write acquisitions; absent a write borrow, read acquisitions always
succeed and stack; and on a free tracker an exclusive acquisition succeeds. -/
theorem C8_amended_per_handle :
    (∀ (tr : BorrowTracker) (w : World) (id u : Nat),
        0 < tr.read_count →
          Entity.get_component_raw_mut tr w id u = RawOutcome.raised msgWriteWhileRead)
    ∧ (∀ (tr : BorrowTracker) (w : World) (id u : Nat),
        0 < tr.write_count →
          Entity.get_component_raw tr w id u = RawOutcome.raised msgReadWhileWrite
          ∧ RawOutcome.isAcquired (Entity.get_component_raw_mut tr w id u) = false)
    ∧ (∀ (tr : BorrowTracker) (w : World) (id u v : Nat),
        tr.write_count = 0 → w.get_component u id = some v →
          Entity.get_component_raw tr w id u
            = RawOutcome.acquired v ⟨tr.read_count + 1, tr.write_count⟩)
    ∧ (∀ (w : World) (id u v : Nat),
        w.get_component u id = some v →
          Entity.get_component_raw_mut BorrowTracker.new w id u
            = RawOutcome.acquired v ⟨0, 1⟩) := by
  refine ⟨?_, ?_, ?_, ?_⟩
  · intro tr w id u h
    simp [Entity.get_component_raw_mut, BorrowTracker.borrow_write, h]
  · intro tr w id u h
    constructor
    · simp [Entity.get_component_raw, BorrowTracker.borrow_read, h]
    · by_cases h2 : 0 < tr.read_count
      · simp [Entity.get_component_raw_mut, BorrowTracker.borrow_write, h2, RawOutcome.isAcquired]
      · simp [Entity.get_component_raw_mut, BorrowTracker.borrow_write, h2, h,
          RawOutcome.isAcquired]
  · intro tr w id u v hw hc
    simp [Entity.get_component_raw, BorrowTracker.borrow_read, hw, hc]
  · intro w id u v hc
    simp [Entity.get_component_raw_mut, BorrowTracker.borrow_write, BorrowTracker.new,
      World.get_component_mut]
    simp only [World.get_component] at hc
    simp [hc]

/-- Example world used by the witness of the amended claim C8. -/
def c8WitWorld : World := World.new.add_component 0 0 9

/-- Witness for the amended claim C8 at concrete inputs. -/
theorem C8_amended_witness :
    Entity.get_component_raw_mut ⟨2, 0⟩ c8WitWorld 0 5 = RawOutcome.raised msgWriteWhileRead
    ∧ (Entity.get_component_raw ⟨0, 1⟩ c8WitWorld 0 5 = RawOutcome.raised msgReadWhileWrite
        ∧ RawOutcome.isAcquired (Entity.get_component_raw_mut ⟨0, 1⟩ c8WitWorld 0 5) = false)
    ∧ Entity.get_component_raw ⟨3, 0⟩ c8WitWorld 0 0 = RawOutcome.acquired 9 ⟨4, 0⟩
    ∧ Entity.get_component_raw_mut BorrowTracker.new c8WitWorld 0 0
        = RawOutcome.acquired 9 ⟨0, 1⟩ :=
  ⟨C8_amended_per_handle.1 ⟨2, 0⟩ c8WitWorld 0 5 (by decide),
   C8_amended_per_handle.2.1 ⟨0, 1⟩ c8WitWorld 0 5 (by decide),
   C8_amended_per_handle.2.2.1 ⟨3, 0⟩ c8WitWorld 0 0 9 rfl rfl,
   C8_amended_per_handle.2.2.2 c8WitWorld 0 0 9 rfl⟩

/-! ## CommandBuffer (src/src/command_buffer.rs)

The source commands capture their work as boxed closures; the add and remove
commands are fully determined by the captured entity id, type and value, and
the create command carries an arbitrary caller-supplied setup closure. -/

inductive Command where
  | createEntity (setup : World → World)
  | addComponent (e t v : Nat)
  | removeComponent (e t : Nat)
  | destroyEntity (e : Nat)

/-- One step of `CommandBuffer::execute`: run a single drained command
against the world. -/
def applyCommand (w : World) (c : Command) : World :=
  match c with
  | Command.createEntity setup => setup w
  | Command.addComponent e t v => w.add_component e t v
  | Command.removeComponent e t => w.remove_component t e
  | Command.destroyEntity e => w.destroy_entity e

structure CommandBuffer where
  commands : List Command

namespace CommandBuffer

/-- `CommandBuffer::new` -/
def new : CommandBuffer := ⟨[]⟩

/-- `CommandBuffer::create_entity`: push a create command. -/
def create_entity (cb : CommandBuffer) (setup : World → World) : CommandBuffer :=
  ⟨cb.commands ++ [Command.createEntity setup]⟩

/-- `CommandBuffer::add_component`: push an add command. -/
def add_component (cb : CommandBuffer) (e t v : Nat) : CommandBuffer :=
  ⟨cb.commands ++ [Command.addComponent e t v]⟩

/-- `CommandBuffer::remove_component`: push a remove command. -/
def remove_component (cb : CommandBuffer) (t e : Nat) : CommandBuffer :=
  ⟨cb.commands ++ [Command.removeComponent e t]⟩

/-- `CommandBuffer::destroy_entity`: push a destroy command. -/
def destroy_entity (cb : CommandBuffer) (e : Nat) : CommandBuffer :=
  ⟨cb.commands ++ [Command.destroyEntity e]⟩

/-- The drain loop of `CommandBuffer::execute`: apply the commands head
first, in the order they were pushed. -/
def execGo : World → List Command → World
  | w, [] => w
  | w, c :: cs => execGo (applyCommand w c) cs

/-- `CommandBuffer::execute`: drain the whole queue against the world; the
buffer is empty afterwards. -/
def execute (cb : CommandBuffer) (w : World) : CommandBuffer × World :=
  (CommandBuffer.new, execGo w cb.commands)

/-- `CommandBuffer::is_empty` -/
def is_empty (cb : CommandBuffer) : Bool :=
  cb.commands.isEmpty

theorem execGo_eq_foldl (cs : List Command) (w : World) :
    execGo w cs = cs.foldl applyCommand w := by
  induction cs generalizing w with
  | nil => rfl
  | cons c cs ih => simp [execGo, List.foldl_cons, ih]

theorem execGo_append (l1 l2 : List Command) (w : World) :
    execGo w (l1 ++ l2) = execGo (execGo w l1) l2 := by
  induction l1 generalizing w with
  | nil => rfl
  | cons c cs ih => simp [execGo, ih]

end CommandBuffer

/-! ## Scene and the deferred handle operations (src/src/game_object.rs) -/

structure Scene where
  world : World
  command_buffer : CommandBuffer

/-- `Scene::apply_commands`: run the buffered commands against the world. -/
def Scene.apply_commands (s : Scene) : Scene :=
  ⟨(s.command_buffer.execute s.world).2, (s.command_buffer.execute s.world).1⟩

/-- `Entity::add_component_deferred`: enqueue onto the command buffer; the
world is untouched until `Scene::apply_commands`. -/
def Entity.add_component_deferred (s : Scene) (id t v : Nat) : Scene :=
  ⟨s.world, s.command_buffer.add_component id t v⟩

/-- Claim C4: CommandBuffer execute applies every buffered command in FIFO
enqueue order (a left fold over the command list) against the given World and
leaves the buffer empty; in particular enqueuing add then remove for the same
entity and type and executing leaves the entity without the component. -/
theorem C4_command_buffer_fifo :
    (∀ (cb : CommandBuffer) (w : World),
        cb.execute w = (CommandBuffer.new, cb.commands.foldl applyCommand w))
    ∧ (∀ (cb : CommandBuffer) (w : World) (e t v : Nat),
        (((cb.add_component e t v).remove_component t e).execute w).2.get_component t e
          = none) := by
  constructor
  · intro cb w
    simp [CommandBuffer.execute, CommandBuffer.execGo_eq_foldl]
  · intro cb w e t v
    have h1 : ((cb.add_component e t v).remove_component t e).commands
        = (cb.commands ++ [Command.addComponent e t v]) ++ [Command.removeComponent e t] := rfl
    simp only [CommandBuffer.execute, h1, CommandBuffer.execGo_append]
    simp only [CommandBuffer.execGo, applyCommand]
    rw [World.get_component_remove]
    simp

/-- Claim C7: a deferred add_component is not visible before the
synchronization point and becomes visible at it: with the component initially
absent, has_component is false immediately after the deferred call and true
immediately after apply_commands. -/
theorem C7_deferred_add (s : Scene) (e t v : Nat)
    (h : s.world.get_component t e = none) :
    Entity.has_component (Entity.add_component_deferred s e t v).world e t = false
    ∧ Entity.has_component ((Entity.add_component_deferred s e t v).apply_commands).world e t
        = true := by
  constructor
  · simp [Entity.add_component_deferred, Entity.has_component, h]
  · show Entity.has_component
      (CommandBuffer.execGo s.world
        (s.command_buffer.commands ++ [Command.addComponent e t v])) e t = true
    rw [CommandBuffer.execGo_append]
    simp [CommandBuffer.execGo, applyCommand, Entity.has_component,
      World.get_component_add_self]

/-- Witness for claim C7 at a concrete scene. -/
theorem C7_deferred_add_witness :
    Entity.has_component
        (Entity.add_component_deferred ⟨World.new, CommandBuffer.new⟩ 0 0 1).world 0 0 = false
    ∧ Entity.has_component
        ((Entity.add_component_deferred ⟨World.new, CommandBuffer.new⟩ 0 0 1).apply_commands).world
        0 0 = true :=
  C7_deferred_add ⟨World.new, CommandBuffer.new⟩ 0 0 1 rfl

/-! ## Claim C9: entity ids are monotonic and never reused

The mutating operations of the World API form a small step language; a run
from `World::new` records every id handed out by `World::create_entity`. -/

inductive WorldOp where
  | createEntity
  | addComponent (e t v : Nat)
  | removeComponent (t e : Nat)
  | deleteEntity (e : Nat)
  | destroyEntity (e : Nat)
deriving DecidableEq, Repr

/-- Apply one World API call, recording the id returned by create_entity. -/
def stepOp : World × List Nat → WorldOp → World × List Nat
  | st, WorldOp.createEntity =>
      ((st.1.create_entity).2, st.2 ++ [(st.1.create_entity).1])
  | st, WorldOp.addComponent e t v => (st.1.add_component e t v, st.2)
  | st, WorldOp.removeComponent t e => (st.1.remove_component t e, st.2)
  | st, WorldOp.deleteEntity e => (st.1.delete_entity e, st.2)
  | st, WorldOp.destroyEntity e => (st.1.destroy_entity e, st.2)

/-- Run a sequence of World API calls from a fresh world, collecting the ids
returned by create_entity, in call order. -/
def runWorldOps (ops : List WorldOp) : World × List Nat :=
  ops.foldl stepOp (World.new, [])

theorem runWorldOps_invariant (ops : List WorldOp) (st : World × List Nat)
    (h1 : List.Pairwise (· < ·) st.2)
    (h2 : ∀ i ∈ st.2, i < st.1.next_entity_id) :
    List.Pairwise (· < ·) (ops.foldl stepOp st).2
    ∧ ∀ i ∈ (ops.foldl stepOp st).2, i < (ops.foldl stepOp st).1.next_entity_id := by
  induction ops generalizing st with
  | nil => exact ⟨h1, h2⟩
  | cons op ops ih =>
    rw [List.foldl_cons]
    refine ih (stepOp st op) ?_ ?_
    · cases op with
      | createEntity =>
        simp only [stepOp, List.pairwise_append]
        exact ⟨h1, List.pairwise_singleton _ _,
          fun a ha b hb => by
            simp only [List.mem_singleton] at hb
            subst hb
            exact h2 a ha⟩
      | addComponent e t v => exact h1
      | removeComponent t e => exact h1
      | deleteEntity e => exact h1
      | destroyEntity e => exact h1
    · cases op with
      | createEntity =>
        intro i hi
        simp only [stepOp, List.mem_append, List.mem_singleton] at hi
        show i < st.1.next_entity_id + 1
        cases hi with
        | inl h => exact Nat.lt_succ_of_lt (h2 i h)
        | inr h =>
          subst h
          exact Nat.lt_succ_self _
      | addComponent e t v =>
        intro i hi
        exact h2 i hi
      | removeComponent t e =>
        intro i hi
        have h3 : (st.1.remove_component t e).next_entity_id = st.1.next_entity_id := by
          rw [World.remove_component]
          cases alookup st.1.components t <;> rfl
        simp only [stepOp, h3]
        exact h2 i hi
      | deleteEntity e =>
        intro i hi
        exact h2 i hi
      | destroyEntity e =>
        intro i hi
        exact h2 i hi

/-- Claim C9: along any sequence of World API calls from a fresh world, the
ids returned by create_entity are strictly increasing in call order (hence
monotonically assigned), and no id is ever returned twice, entity destruction
included. -/
theorem C9_ids_monotonic (ops : List WorldOp) :
    List.Pairwise (· < ·) (runWorldOps ops).2
    ∧ List.Nodup (runWorldOps ops).2 := by
  have h := runWorldOps_invariant ops (World.new, []) (List.Pairwise.nil) (by simp)
  exact ⟨h.1, h.1.imp Nat.ne_of_lt⟩

/-! ## Claim C5: query2 is exactly the intersection of the two storages -/

/-- The worked example of the spec: entities 1, 2, 3 hold the first type
(tag 0) and entities 2, 3, 4 hold the second type (tag 1). -/
def c5world : World :=
  World.new
    |>.add_component 1 0 10
    |>.add_component 2 0 20
    |>.add_component 3 0 30
    |>.add_component 2 1 40
    |>.add_component 3 1 50
    |>.add_component 4 1 60

/-- Claim C5: a triple is produced by query2 exactly when the entity holds
both components with those values, so the produced entity set is the
intersection of the two storages and no incomplete tuple ever appears; on the
example worlds of the spec the produced entities are exactly 2 and 3, in
unspecified order. -/
theorem C5_query2_intersection :
    (∀ (w : World) (t1 t2 e v1 v2 : Nat),
        (e, v1, v2) ∈ w.query2 t1 t2 ↔
          (w.get_component t1 e = some v1 ∧ w.get_component t2 e = some v2))
    ∧ ((c5world.query2 0 1).map (fun p => p.1)).Perm [2, 3] := by
  constructor
  · intro w t1 t2 e v1 v2
    rw [World.query2]
    simp only [World.get_component]
    cases h1 : alookup w.components t1 with
    | none => simp
    | some s1 =>
      cases h2 : alookup w.components t2 with
      | none => simp
      | some s2 =>
        simp only [Option.some_bind]
        rw [List.mem_filterMap]
        constructor
        · rintro ⟨a, ha, hf⟩
          cases hg1 : s1.get a with
          | none =>
            rw [hg1] at hf
            simp at hf
          | some c1 =>
            cases hg2 : s2.get a with
            | none =>
              rw [hg1, hg2] at hf
              simp at hf
            | some c2 =>
              rw [hg1, hg2] at hf
              simp only [Option.some.injEq, Prod.mk.injEq] at hf
              obtain ⟨hae, hc1, hc2⟩ := hf
              subst hae
              subst hc1
              subst hc2
              exact ⟨hg1, hg2⟩
        · rintro ⟨hg1, hg2⟩
          refine ⟨e, ?_, ?_⟩
          · rw [List.mem_filter]
            constructor
            · exact (ComponentStorage.mem_entities_iff s1 e).mpr (by simp [hg1])
            · have hm : e ∈ s2.entities :=
                (ComponentStorage.mem_entities_iff s2 e).mpr (by simp [hg2])
              simpa [List.contains, List.elem_iff] using hm
          · rw [hg1, hg2]
  · have hq : (c5world.query2 0 1).map (fun p => p.1) = [3, 2] := by rfl
    rw [hq]
    exact List.Perm.swap 2 3 []
